import Mathlib

/-!
Verification of the VRM forward-modelling core (`SimPEG/VRM/ProblemVRM.py`).

The development shallowly embeds the problem classes of that file:

* the closed-form rectangular-prism magnetization kernel of
  `BaseProblemVRM._getGeometryMatrix`, including its epsilon-nudging of
  near-zero corner differences (exact arithmetic over `ℝ`, with the float
  literal `1e-10` read as the exact rational `1/10^10`);
* the adaptive refinement pipeline of `_getAMatricies` and
  `_getSubsetAcolumns`;
* the mutable problem state of `LinearVRM` (cached `A`/`T` operators,
  `indActive`/`xiMap` setters, `unpair`, `fields`, `Jvec`, `Jtvec`) as an
  explicit state-passing machine over exact rational matrices;
* the constructor validation of `BaseProblemVRM.__init__` and the
  `refFact`/`refRadius` accessors;
* the log-uniform forward evaluation of `LogUniformVRM.fields`.

External collaborators (mesh, survey, sources, waveforms, parameter maps)
are parameters of the embedding, exactly as they are parameters of the
Python code.
-/

set_option maxHeartbeats 1000000

/-- Field component tag of a receiver (`rxObj.fieldComp`, one of `x`, `y`, `z`). -/
inductive FieldComp : Type
  | x
  | y
  | z
deriving DecidableEq

/-- Nudge applied to a lower-face corner difference, e.g.
`u1[np.abs(u1) < 1e-10] = np.min(xyzh[:, 0])/1000`: a difference whose
absolute value is below `1e-10` is replaced by (minimum cell width)/1000. -/
def nudgeLow {α : Type} [LinearOrderedField α] (minh v : α) : α :=
  if |v| < 1 / 10 ^ 10 then minh / 1000 else v

/-- Nudge applied to an upper-face corner difference, e.g.
`u2[np.abs(u2) < 1e-10] = -np.min(xyzh[:, 0])/1000`: a difference whose
absolute value is below `1e-10` is replaced by -(minimum cell width)/1000. -/
def nudgeHigh {α : Type} [LinearOrderedField α] (minh v : α) : α :=
  if |v| < 1 / 10 ^ 10 then -(minh / 1000) else v

/-- The additive guard `eps = 1e-10` placed on every arctangent denominator. -/
noncomputable def kEps : ℝ := 1 / 10 ^ 10

/-- The scalar `C = -(1/(4*np.pi))` multiplying every kernel row. -/
noncomputable def kC : ℝ := -(1 / (4 * Real.pi))

/-- Abbreviation for `np.sqrt(u**2 + v**2 + w**2)`. -/
noncomputable def rad (u v w : ℝ) : ℝ := Real.sqrt (u ^ 2 + v ^ 2 + w ^ 2)

/-- The `Gxx` arctangent series of the `x`-component branch. -/
noncomputable def GxxFn (u1 u2 v1 v2 w1 w2 : ℝ) : ℝ :=
  Real.arctan ((v1 * w1) / (u1 * rad u1 v1 w1 + kEps)) -
  Real.arctan ((v1 * w1) / (u2 * rad u2 v1 w1 + kEps)) +
  Real.arctan ((v2 * w1) / (u2 * rad u2 v2 w1 + kEps)) -
  Real.arctan ((v2 * w1) / (u1 * rad u1 v2 w1 + kEps)) +
  Real.arctan ((v2 * w2) / (u1 * rad u1 v2 w2 + kEps)) -
  Real.arctan ((v1 * w2) / (u1 * rad u1 v1 w2 + kEps)) +
  Real.arctan ((v1 * w2) / (u2 * rad u2 v1 w2 + kEps)) -
  Real.arctan ((v2 * w2) / (u2 * rad u2 v2 w2 + kEps))

/-- The `Gyx` logarithm series of the `x`-component branch. -/
noncomputable def GyxFn (u1 u2 v1 v2 w1 w2 : ℝ) : ℝ :=
  Real.log (rad u1 v1 w1 - w1) -
  Real.log (rad u2 v1 w1 - w1) +
  Real.log (rad u2 v2 w1 - w1) -
  Real.log (rad u1 v2 w1 - w1) +
  Real.log (rad u1 v2 w2 - w2) -
  Real.log (rad u1 v1 w2 - w2) +
  Real.log (rad u2 v1 w2 - w2) -
  Real.log (rad u2 v2 w2 - w2)

/-- The `Gzx` logarithm series of the `x`-component branch. -/
noncomputable def GzxFn (u1 u2 v1 v2 w1 w2 : ℝ) : ℝ :=
  Real.log (rad u1 v1 w1 - v1) -
  Real.log (rad u2 v1 w1 - v1) +
  Real.log (rad u2 v2 w1 - v2) -
  Real.log (rad u1 v2 w1 - v2) +
  Real.log (rad u1 v2 w2 - v2) -
  Real.log (rad u1 v1 w2 - v1) +
  Real.log (rad u2 v1 w2 - v1) -
  Real.log (rad u2 v2 w2 - v2)

/-- The `Gxy` logarithm series of the `y`-component branch. -/
noncomputable def GxyFn (u1 u2 v1 v2 w1 w2 : ℝ) : ℝ :=
  Real.log (rad u1 v1 w1 - w1) -
  Real.log (rad u2 v1 w1 - w1) +
  Real.log (rad u2 v2 w1 - w1) -
  Real.log (rad u1 v2 w1 - w1) +
  Real.log (rad u1 v2 w2 - w2) -
  Real.log (rad u1 v1 w2 - w2) +
  Real.log (rad u2 v1 w2 - w2) -
  Real.log (rad u2 v2 w2 - w2)

/-- The `Gyy` arctangent series of the `y`-component branch. -/
noncomputable def GyyFn (u1 u2 v1 v2 w1 w2 : ℝ) : ℝ :=
  Real.arctan ((u1 * w1) / (v1 * rad u1 v1 w1 + kEps)) -
  Real.arctan ((u2 * w1) / (v1 * rad u2 v1 w1 + kEps)) +
  Real.arctan ((u2 * w1) / (v2 * rad u2 v2 w1 + kEps)) -
  Real.arctan ((u1 * w1) / (v2 * rad u1 v2 w1 + kEps)) +
  Real.arctan ((u1 * w2) / (v2 * rad u1 v2 w2 + kEps)) -
  Real.arctan ((u1 * w2) / (v1 * rad u1 v1 w2 + kEps)) +
  Real.arctan ((u2 * w2) / (v1 * rad u2 v1 w2 + kEps)) -
  Real.arctan ((u2 * w2) / (v2 * rad u2 v2 w2 + kEps))

/-- The `Gzy` logarithm series of the `y`-component branch. -/
noncomputable def GzyFn (u1 u2 v1 v2 w1 w2 : ℝ) : ℝ :=
  Real.log (rad u1 v1 w1 - u1) -
  Real.log (rad u2 v1 w1 - u2) +
  Real.log (rad u2 v2 w1 - u2) -
  Real.log (rad u1 v2 w1 - u1) +
  Real.log (rad u1 v2 w2 - u1) -
  Real.log (rad u1 v1 w2 - u1) +
  Real.log (rad u2 v1 w2 - u2) -
  Real.log (rad u2 v2 w2 - u2)

/-- The `Gxz` logarithm series of the `z`-component branch. -/
noncomputable def GxzFn (u1 u2 v1 v2 w1 w2 : ℝ) : ℝ :=
  Real.log (rad u1 v1 w1 - v1) -
  Real.log (rad u2 v1 w1 - v1) +
  Real.log (rad u2 v2 w1 - v2) -
  Real.log (rad u1 v2 w1 - v2) +
  Real.log (rad u1 v2 w2 - v2) -
  Real.log (rad u1 v1 w2 - v1) +
  Real.log (rad u2 v1 w2 - v1) -
  Real.log (rad u2 v2 w2 - v2)

/-- The `Gyz` logarithm series of the `z`-component branch. -/
noncomputable def GyzFn (u1 u2 v1 v2 w1 w2 : ℝ) : ℝ :=
  Real.log (rad u1 v1 w1 - u1) -
  Real.log (rad u2 v1 w1 - u2) +
  Real.log (rad u2 v2 w1 - u2) -
  Real.log (rad u1 v2 w1 - u1) +
  Real.log (rad u1 v2 w2 - u1) -
  Real.log (rad u1 v1 w2 - u1) +
  Real.log (rad u2 v1 w2 - u2) -
  Real.log (rad u2 v2 w2 - u2)

/-- The `Gzz` vertical self-term of the `z`-component branch: the first
arctangent series assigned to `Gzz` followed by the second series added to
it (`Gzz = Gzz - arctan(...) + ...`), written out in the source's term order. -/
noncomputable def GzzFn (u1 u2 v1 v2 w1 w2 : ℝ) : ℝ :=
  (- Real.arctan ((v1 * w1) / (u1 * rad u1 v1 w1 + kEps)) +
  Real.arctan ((v1 * w1) / (u2 * rad u2 v1 w1 + kEps)) -
  Real.arctan ((v2 * w1) / (u2 * rad u2 v2 w1 + kEps)) +
  Real.arctan ((v2 * w1) / (u1 * rad u1 v2 w1 + kEps)) -
  Real.arctan ((v2 * w2) / (u1 * rad u1 v2 w2 + kEps)) +
  Real.arctan ((v1 * w2) / (u1 * rad u1 v1 w2 + kEps)) -
  Real.arctan ((v1 * w2) / (u2 * rad u2 v1 w2 + kEps)) +
  Real.arctan ((v2 * w2) / (u2 * rad u2 v2 w2 + kEps))) +
  (- Real.arctan ((u1 * w1) / (v1 * rad u1 v1 w1 + kEps)) +
  Real.arctan ((u2 * w1) / (v1 * rad u2 v1 w1 + kEps)) -
  Real.arctan ((u2 * w1) / (v2 * rad u2 v2 w1 + kEps)) +
  Real.arctan ((u1 * w1) / (v2 * rad u1 v2 w1 + kEps)) -
  Real.arctan ((u1 * w2) / (v2 * rad u1 v2 w2 + kEps)) +
  Real.arctan ((u1 * w2) / (v1 * rad u1 v1 w2 + kEps)) -
  Real.arctan ((u2 * w2) / (v1 * rad u2 v1 w2 + kEps)) +
  Real.arctan ((u2 * w2) / (v2 * rad u2 v2 w2 + kEps)))

/-- One row of the dense geometry matrix `G` for a single receiver location
and component against a single prism cell: the six nudged corner
differences are formed from the receiver location and the prism faces
`center ∓ width/2`, and the component tag selects which three series fill
the row (`G[COUNT, :] = C*np.c_[G?x, G?y, G?z]`). The nudging thresholds
use `minh`, the per-axis minimum cell width of the batch passed to
`_getGeometryMatrix`. -/
noncomputable def geomRow (minh loc : Fin 3 → ℝ) (cp : FieldComp)
    (c h : Fin 3 → ℝ) : Fin 3 → ℝ :=
  let u1 := nudgeLow (minh 0) (loc 0 - (c 0 - h 0 / 2))
  let u2 := nudgeHigh (minh 0) (loc 0 - (c 0 + h 0 / 2))
  let v1 := nudgeLow (minh 1) (loc 1 - (c 1 - h 1 / 2))
  let v2 := nudgeHigh (minh 1) (loc 1 - (c 1 + h 1 / 2))
  let w1 := nudgeLow (minh 2) (loc 2 - (c 2 - h 2 / 2))
  let w2 := nudgeHigh (minh 2) (loc 2 - (c 2 + h 2 / 2))
  match cp with
  | .x => ![kC * GxxFn u1 u2 v1 v2 w1 w2, kC * GyxFn u1 u2 v1 v2 w1 w2,
            kC * GzxFn u1 u2 v1 v2 w1 w2]
  | .y => ![kC * GxyFn u1 u2 v1 v2 w1 w2, kC * GyyFn u1 u2 v1 v2 w1 w2,
            kC * GzyFn u1 u2 v1 v2 w1 w2]
  | .z => ![kC * GxzFn u1 u2 v1 v2 w1 w2, kC * GyzFn u1 u2 v1 v2 w1 w2,
            kC * GzzFn u1 u2 v1 v2 w1 w2]

/-- Entry of one row of the product `G*H0`: the geometry row of the cell
contracted with the inducing field sampled at the cell center, which is how
the stacked diagonal matrix built by `_getH0matrix(xyzc, pp)` acts on `G`. -/
noncomputable def colGH0 (H0f : (Fin 3 → ℝ) → Fin 3 → ℝ)
    (minh loc : Fin 3 → ℝ) (cp : FieldComp) (c h : Fin 3 → ℝ) : ℝ :=
  ∑ d : Fin 3, geomRow minh loc cp c h d * H0f c d

/-- A rectangular prism cell of the active mesh: one row of `xyzc` (cell
center) and of `xyzh` (cell widths per axis). -/
structure PrismCell : Type where
  center : Fin 3 → ℝ
  width : Fin 3 → ℝ

/-- Minimum of a function over a finite batch (`np.min` over a batch
column); an empty batch, on which `np.min` is undefined, yields the junk
value 0. -/
noncomputable def minOf {ι : Type} (S : Finset ι) (f : ι → ℝ) : ℝ :=
  if h : S.Nonempty then S.inf' h f else 0

/-- Per-axis minimum cell width of the full active-cell batch, used for the
nudging thresholds of the unrefined call to `_getGeometryMatrix`. -/
noncomputable def batchMinW {N : ℕ} (cells : Fin N → PrismCell) : Fin 3 → ℝ :=
  fun d => minOf Finset.univ (fun j => (cells j).width d)

/-- Entry `(r, j)` of the unrefined per-source sensitivity block
`G*H0` built by `_getAMatricies` before refinement: the geometry row of
receiver row `r` against active cell `j`, contracted with the inducing
field at the cell center. `rows` lists, in order, the receiver location and
component of each row of the block (the survey is an external collaborator). -/
noncomputable def baseAent {K N : ℕ} (H0f : (Fin 3 → ℝ) → Fin 3 → ℝ)
    (rows : Fin K → (Fin 3 → ℝ) × FieldComp) (cells : Fin N → PrismCell)
    (r : Fin K) (j : Fin N) : ℝ :=
  colGH0 H0f (batchMinW cells) (rows r).1 (rows r).2
    (cells j).center (cells j).width

/-- Decoding of the flat sub-cell index `t` produced by
`np.meshgrid(..., indexing 'xy')` followed by `mkvc` (Fortran-order
flattening): the x offset index is `t / n % n`, the y offset index is
`t % n`, and the z offset index is `t / (n * n)`. -/
def childIdx (n t : ℕ) : Fin 3 → ℕ := ![t / n % n, t % n, t / (n * n)]

/-- Child `t` of a parent cell refined at level `qq` (`n = 2**qq` children
per axis): width `h/n`, center `corner + (h/n) * (k - 0.5)` per axis, where
the corner is the bottom-southwest corner `center - h/2` and `k - 0.5` runs
over `np.linspace(1, n, n) - 0.5`, i.e. index + 1/2. -/
noncomputable def childCell (cell : PrismCell) (qq t : ℕ) : PrismCell where
  center := fun d => (cell.center d - cell.width d / 2) +
    (cell.width d / 2 ^ qq) * ((childIdx (2 ^ qq) t d : ℝ) + 1 / 2)
  width := fun d => cell.width d / 2 ^ qq

/-- Per-axis minimum cell width of the refined sub-batch handed to
`_getGeometryMatrix` by `_getSubsetAcolumns` at level `qq`: all sub-cells
of all cells flagged `qq` have widths `h/n`, so the batch minimum is the
minimum of `width/2^qq` over the flagged cells. -/
noncomputable def subMinW {N : ℕ} (cells : Fin N → PrismCell)
    (refFlag : Fin N → ℕ) (qq : ℕ) : Fin 3 → ℝ :=
  fun d => minOf (Finset.univ.filter (fun j => refFlag j = qq))
    (fun j => (cells j).width d / 2 ^ qq)

/-- Entry `(r, j)` of the replacement columns built by
`_getSubsetAcolumns` for level `qq`: the collapse
`(G*H0)*sp.kron(sp.diags(np.ones(m)), np.ones((n**3, 1)))` sums, for each
flagged parent cell, the `n**3` consecutive sub-cell columns of the refined
block onto the parent's column. -/
noncomputable def subAent {K N : ℕ} (H0f : (Fin 3 → ℝ) → Fin 3 → ℝ)
    (rows : Fin K → (Fin 3 → ℝ) × FieldComp) (cells : Fin N → PrismCell)
    (refFlag : Fin N → ℕ) (qq : ℕ) (r : Fin K) (j : Fin N) : ℝ :=
  ∑ t : Fin ((2 ^ qq) ^ 3),
    colGH0 H0f (subMinW cells refFlag qq) (rows r).1 (rows r).2
      (childCell (cells j) qq t.1).center (childCell (cells j) qq t.1).width

/-- The refinement loop of `_getAMatricies`: starting from the unrefined
block, for each level `qq` in `1..refFact` the columns of the cells flagged
at that level are overwritten with the collapsed sub-cell columns
(`A[pp][:, refFlag == qq] = self._getSubsetAcolumns(...)`); since each cell
carries exactly one flag, the loop is equivalently expressed by recursion
on the highest level. -/
noncomputable def refinedAent {K N : ℕ} (H0f : (Fin 3 → ℝ) → Fin 3 → ℝ)
    (rows : Fin K → (Fin 3 → ℝ) × FieldComp) (cells : Fin N → PrismCell)
    (refFlag : Fin N → ℕ) : ℕ → Fin K → Fin N → ℝ
  | 0 => baseAent H0f rows cells
  | q + 1 => fun r j =>
      if refFlag j = q + 1 then subAent H0f rows cells refFlag (q + 1) r j
      else refinedAent H0f rows cells refFlag q r j

/-- The three per-axis offset indices named by a triple of the
`n × n × n` child grid. -/
def tripleIdx {n : ℕ} (i : Fin n × Fin n × Fin n) : Fin 3 → ℕ :=
  ![i.1.1, i.2.1.1, i.2.2.1]

/-- Python numeric value (`int` vs `float`) as received for `refFact`. -/
inductive PyNum : Type
  | pint : ℤ → PyNum
  | pfloat : ℚ → PyNum
deriving DecidableEq

/-- External 3-D mesh data: per-axis lists of cell widths (`mesh.h`) and
total cell count (`mesh.nC`). -/
structure MeshData : Type where
  h : List (List ℚ)
  nC : ℕ
deriving DecidableEq

/-- Boolean-coercibility test of `indActive`:
`list(ind).count(True) + list(ind).count(False) == len(ind)`, where for
integer entries Python equates `1 == True` and `0 == False`. -/
def boolCoercible (l : List ℤ) : Bool := l.all fun z => z == 0 || z == 1

/-- `np.arange(1, z + 1)` as rationals (empty when `z ≤ 0`). -/
def arangeTo (z : ℤ) : List ℚ := (List.range z.toNat).map fun k => (k : ℚ) + 1

/-- Default `refRadius`:
`1.25*np.mean(np.r_[np.min(mesh.h[0]), np.min(mesh.h[1]), np.min(mesh.h[2])])*np.arange(1, self.refFact+1)`.
The default expression of `kwargs.get` is evaluated eagerly even when the
kwarg is present, so a mesh with fewer than three axis arrays raises
`IndexError` here and an empty axis array makes `np.min` raise. For a
non-integer `refFact` the constructor fails at the integer assertion before
this value can be observed, so that case returns a junk empty list. -/
def defaultRefRadius (m : MeshData) (rf : PyNum) : Except String (List ℚ) :=
  match m.h.get? 0, m.h.get? 1, m.h.get? 2 with
  | some h0, some h1, some h2 =>
    match h0.min?, h1.min?, h2.min? with
    | some m0, some m1, some m2 =>
      match rf with
      | .pint z =>
          Except.ok ((arangeTo z).map fun k => 5 / 4 * ((m0 + m1 + m2) / 3) * k)
      | .pfloat _ => Except.ok []
    | _, _, _ => Except.error "ValueError: zero-size array to reduction operation"
  | _, _, _ => Except.error "IndexError: list index out of range"

/-- Configuration state established by `BaseProblemVRM.__init__`. -/
structure BaseSt : Type where
  refFact : ℤ
  refRadius : List ℚ
  indActive : List ℤ
deriving DecidableEq

/-- The `refFact` setter: `assert isinstance(Val, int) and Val > -1`; the
length comparison against `refRadius` only prints a warning and never
rejects the write. -/
def setRefFact (s : BaseSt) (v : PyNum) : Except String BaseSt :=
  match v with
  | .pint z =>
    if z > -1 then Except.ok { s with refFact := z }
    else Except.error "Refinement factor must be an integer value equal or larger than 0"
  | .pfloat _ =>
      Except.error "Refinement factor must be an integer value equal or larger than 0"

/-- Modelled from the spec: the missing base-class initializer
`super(BaseProblemVRM, self).__init__(mesh, **kwargs)` (SimPEG's
`Problem.BaseProblem`, not under src/). Its kwarg machinery applies each
forwarded kwarg through `setattr`, hence through the validating property
setters of this class — the spec lists "`refFact` not a non-negative
integer" among construction-time fatal failures, and the in-file `refFact`
setter is the code that enforces the non-negative half. A provided
`refFact` kwarg therefore passes through `setRefFact`; a provided
`refRadius` (an array by modelling) passes its `isinstance(ndarray)`
assertion trivially, and a provided `indActive` re-runs the boolean check
on the mask already stored at construction, which the constructor's own
assertion has just established. -/
def superSetKwargs (s : BaseSt) (refFactKw : Option PyNum) :
    Except String BaseSt :=
  match refFactKw with
  | none => Except.ok s
  | some v => setRefFact s v

/-- `BaseProblemVRM.__init__`: resolve the kwargs (with their defaults,
the `refRadius` default evaluated eagerly), run the four assertions in
source order (3-D mesh, integer `refFact`, `len(refRadius) >= refFact`,
boolean-coercible `indActive`), then forward the kwargs to the base-class
initializer, whose setattr machinery re-validates a provided `refFact`
through the `refFact` setter. -/
def initBase (m : MeshData) (refFactKw : Option PyNum)
    (refRadiusKw : Option (List ℚ)) (indActiveKw : Option (List ℤ)) :
    Except String BaseSt := do
  let rf := refFactKw.getD (PyNum.pint 3)
  let dflt ← defaultRefRadius m rf
  let rr := refRadiusKw.getD dflt
  let ia := indActiveKw.getD (List.replicate m.nC 1)
  if m.h.length = 3 then
    match rf with
    | .pint z =>
      if z ≤ (rr.length : ℤ) then
        if boolCoercible ia then
          superSetKwargs { refFact := z, refRadius := rr, indActive := ia }
            refFactKw
        else Except.error "indActive must be a boolean array"
      else Except.error "Number of refinement radii must equal or greater than refinement factor"
    | .pfloat _ => Except.error "Refinement factor must be set as an integer"
  else Except.error "Problem requires 3D tensor or OcTree mesh"

/-- The `refRadius` setter: `assert isinstance(Array, np.ndarray)` (the
input is modelled as an array); the length comparison against `refFact`
only prints a warning, so every array is accepted. -/
def setRefRadius (s : BaseSt) (arr : List ℚ) : BaseSt := { s with refRadius := arr }

/-- Mutable state of a `LinearVRM` instance: the survey binding, the
active-cell mask, the parameter map object, the two cached operators and
their built flags. The survey and map types are external. -/
structure LinSt (nK nAct nP nF : ℕ) (Sv Mp : Type) : Type where
  survey : Option Sv
  indActive : List ℤ
  xiMap : Mp
  Amat : Option (Matrix (Fin nK) (Fin nAct) ℚ)
  Tmat : Option (Matrix (Fin nF) (Fin nK) ℚ)
  AisSet : Bool
  TisSet : Bool

/-- The `A` property of `LinearVRM`: if the built flag is down, assert the
pairing, build, store and return; otherwise return the stored matrix. The
build (`np.vstack(self._getAMatricies())`) depends on the survey and the
active mask and is supplied as an external function of those inputs. -/
def getAmat {nK nAct nP nF : ℕ} {Sv Mp : Type}
    (buildA : Sv → List ℤ → Matrix (Fin nK) (Fin nAct) ℚ)
    (s : LinSt nK nAct nP nF Sv Mp) :
    Except String (Matrix (Fin nK) (Fin nAct) ℚ × LinSt nK nAct nP nF Sv Mp) :=
  if s.AisSet = false then
    match s.survey with
    | none => Except.error "Problem must be paired with survey to generate A matrix"
    | some sv =>
        Except.ok (buildA sv s.indActive,
          { s with Amat := some (buildA sv s.indActive), AisSet := true })
  else Except.ok (s.Amat.getD 0, s)

/-- The `T` property of `LinearVRM`: same caching discipline as `A`; the
build (the block-diagonal characteristic-decay stack) depends only on the
survey's receivers and waveforms. -/
def getTmat {nK nAct nP nF : ℕ} {Sv Mp : Type}
    (buildT : Sv → Matrix (Fin nF) (Fin nK) ℚ)
    (s : LinSt nK nAct nP nF Sv Mp) :
    Except String (Matrix (Fin nF) (Fin nK) ℚ × LinSt nK nAct nP nF Sv Mp) :=
  if s.TisSet = false then
    match s.survey with
    | none => Except.error "Problem must be paired with survey to generate T matrix"
    | some sv =>
        Except.ok (buildT sv,
          { s with Tmat := some (buildT sv), TisSet := true })
  else Except.ok (s.Tmat.getD 0, s)

/-- Effective value of the geometry operator in a given state: the cached
matrix when the flag is up, the fresh build otherwise. -/
def valA {nK nAct nP nF : ℕ} {Sv Mp : Type}
    (buildA : Sv → List ℤ → Matrix (Fin nK) (Fin nAct) ℚ)
    (s : LinSt nK nAct nP nF Sv Mp) (sv : Sv) : Matrix (Fin nK) (Fin nAct) ℚ :=
  if s.AisSet then s.Amat.getD 0 else buildA sv s.indActive

/-- Effective value of the decay operator in a given state. -/
def valT {nK nAct nP nF : ℕ} {Sv Mp : Type}
    (buildT : Sv → Matrix (Fin nF) (Fin nK) ℚ)
    (s : LinSt nK nAct nP nF Sv Mp) (sv : Sv) : Matrix (Fin nF) (Fin nK) ℚ :=
  if s.TisSet then s.Tmat.getD 0 else buildT sv

/-- Row selection `self.T.tocsr()[self.survey.tActive, :]`: keep the rows
whose time channel is flagged active. -/
def tSel {nF nK : ℕ} (act : Fin nF → Bool) (T : Matrix (Fin nF) (Fin nK) ℚ) :
    Matrix {i : Fin nF // act i = true} (Fin nK) ℚ :=
  Matrix.of fun i j => T i.1 j

/-- The value computed by `LinearVRM.Jvec`: project through `xiMap.P`,
multiply by `A`, multiply by the active-time rows of `T`. -/
def JvecVal {nK nAct nP nF : ℕ} (T : Matrix (Fin nF) (Fin nK) ℚ)
    (A : Matrix (Fin nK) (Fin nAct) ℚ) (P : Matrix (Fin nAct) (Fin nP) ℚ)
    (act : Fin nF → Bool) (v : Fin nP → ℚ) : {i : Fin nF // act i = true} → ℚ :=
  (tSel act T).mulVec (A.mulVec (P.mulVec v))

/-- The value computed by `LinearVRM.Jtvec`: multiply by the transpose of
the active-time rows of `T`, then by the transpose of `A` (the source forms
`(v.T @ A).T`), then by `xiMap.P.T`. -/
def JtvecVal {nK nAct nP nF : ℕ} (T : Matrix (Fin nF) (Fin nK) ℚ)
    (A : Matrix (Fin nK) (Fin nAct) ℚ) (P : Matrix (Fin nAct) (Fin nP) ℚ)
    (act : Fin nF → Bool) (w : {i : Fin nF // act i = true} → ℚ) : Fin nP → ℚ :=
  P.transpose.mulVec (A.transpose.mulVec ((tSel act T).transpose.mulVec w))

/-- `LinearVRM.unpair`: no-op when not paired; otherwise clear the survey
binding, the two cached operators and their built flags. -/
def unpairS {nK nAct nP nF : ℕ} {Sv Mp : Type}
    (s : LinSt nK nAct nP nF Sv Mp) : LinSt nK nAct nP nF Sv Mp :=
  match s.survey with
  | none => s
  | some _ =>
      { s with
        survey := none
        Amat := none
        Tmat := none
        AisSet := false
        TisSet := false }

/-- The `indActive` setter: the boolean assertion is evaluated on the
previously stored mask (`self._indActive`, not the new value), then the `A`
built flag is lowered and the new mask stored. The `T` cache is untouched. -/
def setIndActive {nK nAct nP nF : ℕ} {Sv Mp : Type}
    (s : LinSt nK nAct nP nF Sv Mp) (v : List ℤ) :
    Except String (LinSt nK nAct nP nF Sv Mp) :=
  if boolCoercible s.indActive then
    Except.ok { s with AisSet := false, indActive := v }
  else Except.error "indActive must be a boolean array"

/-- The `xiMap` setter: lower the `A` built flag and store the new mapping
object. The `T` cache is untouched. -/
def setXiMap {nK nAct nP nF : ℕ} {Sv Mp : Type}
    (s : LinSt nK nAct nP nF Sv Mp) (mp : Mp) : LinSt nK nAct nP nF Sv Mp :=
  { s with AisSet := false, xiMap := mp }

/-- `LinearVRM.fields`: assert the pairing, project the model through the
parameter map, multiply by `A`, multiply by `T`. The `T` property is read
before the `A` property (`sp.coo_matrix.dot(self.T, self.A*m)`), each read
caching its operator. -/
def fieldsS {nK nAct nP nF : ℕ} {Sv Mp : Type}
    (buildA : Sv → List ℤ → Matrix (Fin nK) (Fin nAct) ℚ)
    (buildT : Sv → Matrix (Fin nF) (Fin nK) ℚ)
    (mapApp : Mp → (Fin nP → ℚ) → Fin nAct → ℚ)
    (s : LinSt nK nAct nP nF Sv Mp) (m : Fin nP → ℚ) :
    Except String ((Fin nF → ℚ) × LinSt nK nAct nP nF Sv Mp) :=
  match s.survey with
  | none => Except.error "Problem must be paired with survey to predict data"
  | some _ => do
    let tres ← getTmat buildT s
    let ares ← getAmat buildA tres.2
    Except.ok (tres.1.mulVec (ares.1.mulVec (mapApp s.xiMap m)), ares.2)

/-- `LinearVRM.Jvec` as a state transformer: assert the pairing, then read
`A`, then the active-time rows of `T`, and return the chained product. The
model argument `m` is accepted and ignored, as in the source. `act` is the
paired survey's `tActive` mask. -/
def JvecS {nK nAct nP nF : ℕ} {Sv Mp : Type}
    (buildA : Sv → List ℤ → Matrix (Fin nK) (Fin nAct) ℚ)
    (buildT : Sv → Matrix (Fin nF) (Fin nK) ℚ)
    (act : Fin nF → Bool) (mapP : Mp → Matrix (Fin nAct) (Fin nP) ℚ)
    (s : LinSt nK nAct nP nF Sv Mp) (m v : Fin nP → ℚ) :
    Except String (({i : Fin nF // act i = true} → ℚ) × LinSt nK nAct nP nF Sv Mp) :=
  match s.survey with
  | none => Except.error "Problem must be paired with survey to predict data"
  | some _ => do
    let ares ← getAmat buildA s
    let tres ← getTmat buildT ares.2
    Except.ok (JvecVal tres.1 ares.1 (mapP s.xiMap) act v, tres.2)

/-- `LinearVRM.Jtvec` as a state transformer: assert the pairing, read `T`
then `A`, and return the transposed chain. -/
def JtvecS {nK nAct nP nF : ℕ} {Sv Mp : Type}
    (buildA : Sv → List ℤ → Matrix (Fin nK) (Fin nAct) ℚ)
    (buildT : Sv → Matrix (Fin nF) (Fin nK) ℚ)
    (act : Fin nF → Bool) (mapP : Mp → Matrix (Fin nAct) (Fin nP) ℚ)
    (s : LinSt nK nAct nP nF Sv Mp) (m : Fin nP → ℚ)
    (w : {i : Fin nF // act i = true} → ℚ) :
    Except String ((Fin nP → ℚ) × LinSt nK nAct nP nF Sv Mp) :=
  match s.survey with
  | none => Except.error "Problem must be paired with survey to predict data"
  | some _ => do
    let tres ← getTmat buildT s
    let ares ← getAmat buildA tres.2
    Except.ok (JtvecVal tres.1 ares.1 (mapP s.xiMap) act w, ares.2)

/-- The iteration space of the double loop of `LogUniformVRM.fields`:
pairs `(pp, qq)` of source index and receiver index within that source,
given the receiver count of each source. -/
def rxPairs (sources : List ℕ) : List (ℕ × ℕ) :=
  sources.enum.flatMap fun pn => (List.range pn.2).map fun qq => (pn.1, qq)

/-- `mkvc` of a matrix: Fortran-order flattening (first index fastest). -/
def mkvcF {a b : ℕ} (M : Matrix (Fin a) (Fin b) ℚ) : List ℚ :=
  (List.finRange b).flatMap fun jj => (List.finRange a).map fun ii => M ii jj

/-- `LogUniformVRM.fields(m_chi0, m_dchi, m_tau1, m_tau2)`: assert the
pairing, project the four parameter vectors through `xiMap`, then for each
source `pp` and each of its receivers `qq` evaluate the external
log-uniform decay kernel and append `mkvc((self.A[qq] * eta).T)` — note
the source indexes the per-source block list by the receiver counter `qq`.
An out-of-range index raises. -/
def fieldsLU {nAct nP kk nT : ℕ}
    (sources : List ℕ)
    (Alist : List (Matrix (Fin kk) (Fin nAct) ℚ))
    (decay : ℕ → ℕ → (Fin nAct → ℚ) → (Fin nAct → ℚ) → (Fin nAct → ℚ) →
      (Fin nAct → ℚ) → Matrix (Fin nAct) (Fin nT) ℚ)
    (mapApp : (Fin nP → ℚ) → Fin nAct → ℚ)
    (ispaired : Bool)
    (mchi0 mdchi mtau1 mtau2 : Fin nP → ℚ) : Except String (List ℚ) :=
  if ispaired = false then
    Except.error "Problem must be paired with survey to predict data"
  else
    let chi0 := mapApp mchi0
    let dchi := mapApp mdchi
    let tau1 := mapApp mtau1
    let tau2 := mapApp mtau2
    (rxPairs sources).foldl
      (fun acc pq => do
        let rest ← acc
        match Alist.get? pq.2 with
        | none => Except.error "IndexError: list index out of range"
        | some B =>
            Except.ok (rest ++
              mkvcF (B * decay pq.1 pq.2 chi0 dchi tau1 tau2).transpose))
      (Except.ok [])

/-- C10: the trace-free identity of the prism kernel. At any six corner
differences (in particular the epsilon-nudged ones), the `Gzz` series is
the term-by-term negation of the sum of the `Gxx` and `Gyy` series, so the
diagonal of the sensitivity tensor sums to zero by construction. -/
theorem Gzz_trace_free (u1 u2 v1 v2 w1 w2 : ℝ) :
    GzzFn u1 u2 v1 v2 w1 w2 =
      -(GxxFn u1 u2 v1 v2 w1 w2 + GyyFn u1 u2 v1 v2 w1 w2) := by
  unfold GzzFn GxxFn GyyFn
  ring

/-- Encoded flat index of a child triple stays below the sub-batch size. -/
theorem encode_lt (n a b c : ℕ) (ha : a < n) (hb : b < n) (hc : c < n) :
    b + n * a + n * n * c < n ^ 3 := by
  have h2 : n * (a + 1) ≤ n * n := Nat.mul_le_mul_left n ha
  have h3 : n * n * (c + 1) ≤ n * n * n := Nat.mul_le_mul_left (n * n) hc
  have hp : n ^ 3 = n * n * n := by ring
  nlinarith [hb, h2, h3]

/-- First decoding identity: `t % n` recovers the second index. -/
theorem decode_mod (n a b c : ℕ) (hb : b < n) :
    (b + n * a + n * n * c) % n = b := by
  have h : b + n * a + n * n * c = b + n * (a + n * c) := by ring
  rw [h, Nat.add_mul_mod_self_left, Nat.mod_eq_of_lt hb]

/-- Division of the encoded index by `n` strips the second index. -/
theorem decode_div (n a b c : ℕ) (hn : 0 < n) (hb : b < n) :
    (b + n * a + n * n * c) / n = a + n * c := by
  have h : b + n * a + n * n * c = b + n * (a + n * c) := by ring
  rw [h, Nat.add_mul_div_left _ _ hn, Nat.div_eq_of_lt hb, Nat.zero_add]

/-- Second decoding identity: `t / n % n` recovers the first index. -/
theorem decode_divmod (n a b c : ℕ) (hn : 0 < n) (ha : a < n) (hb : b < n) :
    (b + n * a + n * n * c) / n % n = a := by
  rw [decode_div n a b c hn hb, Nat.add_mul_mod_self_left, Nat.mod_eq_of_lt ha]

/-- Third decoding identity: `t / (n * n)` recovers the third index. -/
theorem decode_div2 (n a b c : ℕ) (hn : 0 < n) (ha : a < n) (hb : b < n) :
    (b + n * a + n * n * c) / (n * n) = c := by
  rw [← Nat.div_div_eq_div_mul, decode_div n a b c hn hb,
    Nat.add_mul_div_left _ _ hn, Nat.div_eq_of_lt ha, Nat.zero_add]

/-- Reassembling the three decoded indices gives back the flat index. -/
theorem decode_encode (n t : ℕ) :
    t % n + n * (t / n % n) + n * n * (t / (n * n)) = t := by
  have h1 := Nat.div_add_mod t n
  have h2 := Nat.div_add_mod (t / n) n
  rw [Nat.div_div_eq_div_mul] at h2
  have h3 : n * (n * (t / (n * n)) + t / n % n) = n * (t / n) := by rw [h2]
  nlinarith [h1, h3]

/-- Quotient of a flat sub-cell index by `n * n` stays below `n`. -/
theorem flat_div2_lt (n : ℕ) (t : Fin (n ^ 3)) : t.1 / (n * n) < n := by
  have hp : n ^ 3 = n * n * n := by ring
  exact Nat.div_lt_of_lt_mul (lt_of_lt_of_eq t.2 hp)

/-- The flat sum over the `n^3` sub-cells of `_getSubsetAcolumns` equals
the sum over the explicit `n × n × n` offset grid of children. -/
theorem subAent_eq_triple {K N : ℕ} (H0f : (Fin 3 → ℝ) → Fin 3 → ℝ)
    (rows : Fin K → (Fin 3 → ℝ) × FieldComp) (cells : Fin N → PrismCell)
    (refFlag : Fin N → ℕ) (qq : ℕ) (r : Fin K) (j : Fin N) :
    subAent H0f rows cells refFlag qq r j =
      ∑ i : Fin (2 ^ qq) × Fin (2 ^ qq) × Fin (2 ^ qq),
        colGH0 H0f (subMinW cells refFlag qq) (rows r).1 (rows r).2
          (fun d => ((cells j).center d - (cells j).width d / 2) +
            ((cells j).width d / 2 ^ qq) * ((tripleIdx i d : ℝ) + 1 / 2))
          (fun d => (cells j).width d / 2 ^ qq) := by
  have hn : 0 < 2 ^ qq := Nat.pos_pow_of_pos qq (by norm_num)
  unfold subAent
  refine Finset.sum_nbij'
    (fun t => (⟨t.1 / 2 ^ qq % 2 ^ qq, Nat.mod_lt _ hn⟩,
      ⟨t.1 % 2 ^ qq, Nat.mod_lt _ hn⟩,
      ⟨t.1 / (2 ^ qq * 2 ^ qq), flat_div2_lt (2 ^ qq) t⟩))
    (fun i => ⟨i.2.1.1 + 2 ^ qq * i.1.1 + 2 ^ qq * 2 ^ qq * i.2.2.1,
      by simpa using
        encode_lt (2 ^ qq) i.1.1 i.2.1.1 i.2.2.1 i.1.2 i.2.1.2 i.2.2.2⟩)
    (fun a _ => Finset.mem_univ _) (fun a _ => Finset.mem_univ _)
    (fun t _ => ?_) (fun i _ => ?_) (fun t _ => ?_)
  · exact Fin.ext (decode_encode (2 ^ qq) t.1)
  · obtain ⟨⟨a, ha⟩, ⟨b, hb⟩, ⟨c, hc⟩⟩ := i
    simp only [Prod.mk.injEq, Fin.mk.injEq]
    refine ⟨?_, ?_, ?_⟩
    · exact decode_divmod _ a b c hn ha hb
    · exact decode_mod _ a b c hb
    · exact decode_div2 _ a b c hn ha hb
  · rfl

/-- C2: Refinement collapse. After the refinement loop of
`_getAMatricies`, a cell flagged at level `qq` in `1..refFact` has its
per-source column replaced by the sum over its `n^3` children's columns
(`n = 2^qq`), the children being the equal sub-cells of width `h/n` whose
centers lie on the offset grid `corner + (k - 0.5) * h/n` per axis, each
child's column computed with the same prism kernel and H0 embedding at the
refined resolution; a cell flagged at level 0 keeps its unrefined level-0
column unchanged. -/
theorem refinement_collapse {K N : ℕ} (H0f : (Fin 3 → ℝ) → Fin 3 → ℝ)
    (rows : Fin K → (Fin 3 → ℝ) × FieldComp) (cells : Fin N → PrismCell)
    (refFlag : Fin N → ℕ) (refFact qq : ℕ) (r : Fin K) (j : Fin N) :
    (refFlag j = qq → 1 ≤ qq → qq ≤ refFact →
      refinedAent H0f rows cells refFlag refFact r j =
        ∑ i : Fin (2 ^ qq) × Fin (2 ^ qq) × Fin (2 ^ qq),
          colGH0 H0f (subMinW cells refFlag qq) (rows r).1 (rows r).2
            (fun d => ((cells j).center d - (cells j).width d / 2) +
              ((cells j).width d / 2 ^ qq) * ((tripleIdx i d : ℝ) + 1 / 2))
            (fun d => (cells j).width d / 2 ^ qq)) ∧
    (refFlag j = 0 →
      refinedAent H0f rows cells refFlag refFact r j =
        baseAent H0f rows cells r j) := by
  constructor
  · intro hflag h1
    induction refFact with
    | zero => intro h2; omega
    | succ q ih =>
      intro h2
      by_cases hq : qq = q + 1
      · subst hq
        simp only [refinedAent]
        rw [if_pos hflag]
        exact subAent_eq_triple H0f rows cells refFlag (q + 1) r j
      · have hle : qq ≤ q := by omega
        simp only [refinedAent]
        rw [if_neg (by rw [hflag]; exact hq)]
        exact ih hle
  · intro h0
    induction refFact with
    | zero => rfl
    | succ q ih =>
      simp only [refinedAent]
      rw [if_neg (by simp [h0])]
      exact ih

/-- Witness for `refinement_collapse`: one cell, one z-component receiver
row, refinement factor 1, the cell flagged at level 1. -/
theorem refinement_collapse_witness :
    (fun _ : Fin 1 => 1) (0 : Fin 1) = 1 ∧ (1 : ℕ) ≤ 1 ∧ (1 : ℕ) ≤ 1 ∧
    refinedAent (fun _ _ => (1 : ℝ))
        (fun _ : Fin 1 => (fun _ => (2 : ℝ), FieldComp.z))
        (fun _ : Fin 1 => PrismCell.mk (fun _ => 0) (fun _ => 1))
        (fun _ : Fin 1 => 1) 1 0 0 =
      ∑ i : Fin (2 ^ 1) × Fin (2 ^ 1) × Fin (2 ^ 1),
        colGH0 (fun _ _ => (1 : ℝ))
          (subMinW (fun _ : Fin 1 => PrismCell.mk (fun _ => 0) (fun _ => 1))
            (fun _ : Fin 1 => 1) 1)
          (fun _ => (2 : ℝ)) FieldComp.z
          (fun d => ((0 : ℝ) - 1 / 2) +
            ((1 : ℝ) / 2 ^ 1) * ((tripleIdx i d : ℝ) + 1 / 2))
          (fun _ => (1 : ℝ) / 2 ^ 1) :=
  ⟨rfl, le_refl 1, le_refl 1,
    (refinement_collapse (fun _ _ => (1 : ℝ))
        (fun _ : Fin 1 => (fun _ => (2 : ℝ), FieldComp.z))
        (fun _ : Fin 1 => PrismCell.mk (fun _ => 0) (fun _ => 1))
        (fun _ : Fin 1 => 1) 1 1 0 0).1 rfl (le_refl 1) (le_refl 1)⟩

/-- C3 (amended): the kernel's nudging policy replaces a corner difference
whose absolute value is within `1e-10` of zero by (minimum cell
width)/1000, signed positively for lower-face differences and negatively
for upper-face differences, and leaves every other difference unchanged;
as a total function of its inputs it is deterministic and never fails. -/
theorem nudge_policy {α : Type} [LinearOrderedField α] (minh v : α) :
    (|v| < 1 / 10 ^ 10 →
      nudgeLow minh v = minh / 1000 ∧ nudgeHigh minh v = -(minh / 1000)) ∧
    (1 / 10 ^ 10 ≤ |v| → nudgeLow minh v = v ∧ nudgeHigh minh v = v) := by
  constructor
  · intro h
    unfold nudgeLow nudgeHigh
    rw [if_pos h, if_pos h]
    exact ⟨rfl, rfl⟩
  · intro h
    have h' : ¬ |v| < 1 / 10 ^ 10 := not_lt.mpr h
    unfold nudgeLow nudgeHigh
    rw [if_neg h', if_neg h']
    exact ⟨rfl, rfl⟩

/-- Witness for `nudge_policy` at a zero lower-face difference with
minimum cell width 2. -/
theorem nudge_policy_witness :
    |(0 : ℚ)| < 1 / 10 ^ 10 ∧ nudgeLow (2 : ℚ) 0 = 2 / 1000 :=
  ⟨by norm_num, ((nudge_policy (2 : ℚ) 0).1 (by norm_num)).1⟩

/-- Counterexample to C3 as stated: a lower-face corner difference equal
to the relevant cell width (hence within `1e-10` of it), with minimum cell
width 1, is NOT replaced by an epsilon: the nudge returns the difference
unchanged, and the unchanged value differs from the epsilon `minh/1000`. -/
theorem nudge_threshold_cex :
    |(1 : ℚ) - 1| < 1 / 10 ^ 10 ∧ nudgeLow (1 : ℚ) 1 = 1 ∧
      (1 : ℚ) ≠ 1 / 1000 := by
  refine ⟨by norm_num, ?_, by norm_num⟩
  unfold nudgeLow
  rw [if_neg (by norm_num)]

/-- C1: adjoint consistency of the linear decay law. For every geometry
operator `A`, decay operator `T`, parameter-map projection `P` and
active-time mask — hence for every paired `LinearVRM` problem — and all
vectors `v` (model length) and `w` (active-time data length),
`w · Jvec(m, v) = v · Jtvec(m, w)` in exact arithmetic, because `Jtvec`
applies the transposes of the factors of `Jvec` in reverse order. -/
theorem Jvec_Jtvec_adjoint {nK nAct nP nF : ℕ} (T : Matrix (Fin nF) (Fin nK) ℚ)
    (A : Matrix (Fin nK) (Fin nAct) ℚ) (P : Matrix (Fin nAct) (Fin nP) ℚ)
    (act : Fin nF → Bool) (v : Fin nP → ℚ)
    (w : {i : Fin nF // act i = true} → ℚ) :
    Matrix.dotProduct w (JvecVal T A P act v) =
      Matrix.dotProduct v (JtvecVal T A P act w) := by
  unfold JvecVal JtvecVal
  rw [Matrix.dotProduct_mulVec, Matrix.dotProduct_mulVec,
    Matrix.dotProduct_mulVec, Matrix.mulVec_transpose, Matrix.mulVec_transpose,
    Matrix.mulVec_transpose, Matrix.dotProduct_comm]

/-- Reading `A` in a paired state yields the effective operator value and
a state whose survey, `T` cache, mask and map are untouched and whose `A`
flag is up. -/
theorem getAmat_paired {nK nAct nP nF : ℕ} {Sv Mp : Type}
    (buildA : Sv → List ℤ → Matrix (Fin nK) (Fin nAct) ℚ)
    (s : LinSt nK nAct nP nF Sv Mp) (sv : Sv) (hs : s.survey = some sv) :
    ∃ s', getAmat buildA s = Except.ok (valA buildA s sv, s') ∧
      s'.survey = s.survey ∧ s'.TisSet = s.TisSet ∧ s'.Tmat = s.Tmat ∧
      s'.AisSet = true ∧ s'.indActive = s.indActive ∧ s'.xiMap = s.xiMap := by
  cases hA : s.AisSet with
  | false =>
      refine ⟨{ s with Amat := some (buildA sv s.indActive), AisSet := true },
        ?_, rfl, rfl, rfl, rfl, rfl, rfl⟩
      simp [getAmat, valA, hA, hs]
  | true =>
      refine ⟨s, ?_, rfl, rfl, rfl, hA, rfl, rfl⟩
      simp [getAmat, valA, hA]

/-- Reading `T` in a paired state yields the effective operator value and
a state whose survey, `A` cache, mask and map are untouched and whose `T`
flag is up. -/
theorem getTmat_paired {nK nAct nP nF : ℕ} {Sv Mp : Type}
    (buildT : Sv → Matrix (Fin nF) (Fin nK) ℚ)
    (s : LinSt nK nAct nP nF Sv Mp) (sv : Sv) (hs : s.survey = some sv) :
    ∃ s', getTmat buildT s = Except.ok (valT buildT s sv, s') ∧
      s'.survey = s.survey ∧ s'.AisSet = s.AisSet ∧ s'.Amat = s.Amat ∧
      s'.TisSet = true ∧ s'.indActive = s.indActive ∧ s'.xiMap = s.xiMap := by
  cases hT : s.TisSet with
  | false =>
      refine ⟨{ s with Tmat := some (buildT sv), TisSet := true },
        ?_, rfl, rfl, rfl, rfl, rfl, rfl⟩
      simp [getTmat, valT, hT, hs]
  | true =>
      refine ⟨s, ?_, rfl, rfl, rfl, hT, rfl, rfl⟩
      simp [getTmat, valT, hT]

/-- C4 (amended): two successive reads of `A` (resp. `T`) with no
intervening mutation return the identical cached value, the second read
leaving the state unchanged (the operator is built at most once); writing
`indActive` or the parameter map lowers only the `A` built flag, leaving
the cached `T` and its flag intact; unpairing invalidates both cached
operators. -/
theorem cache_behavior {nK nAct nP nF : ℕ} {Sv Mp : Type}
    (buildA : Sv → List ℤ → Matrix (Fin nK) (Fin nAct) ℚ)
    (buildT : Sv → Matrix (Fin nF) (Fin nK) ℚ)
    (s : LinSt nK nAct nP nF Sv Mp)
    (a : Matrix (Fin nK) (Fin nAct) ℚ) (t : Matrix (Fin nF) (Fin nK) ℚ)
    (s1 s2 : LinSt nK nAct nP nF Sv Mp) (v : List ℤ) (mp : Mp) :
    (getAmat buildA s = Except.ok (a, s1) →
      getAmat buildA s1 = Except.ok (a, s1) ∧ s1.AisSet = true) ∧
    (getTmat buildT s = Except.ok (t, s2) →
      getTmat buildT s2 = Except.ok (t, s2) ∧ s2.TisSet = true) ∧
    (∀ s3, setIndActive s v = Except.ok s3 →
      s3.AisSet = false ∧ s3.indActive = v ∧ s3.Tmat = s.Tmat ∧
        s3.TisSet = s.TisSet) ∧
    ((setXiMap s mp).AisSet = false ∧ (setXiMap s mp).xiMap = mp ∧
      (setXiMap s mp).Tmat = s.Tmat ∧ (setXiMap s mp).TisSet = s.TisSet) ∧
    (∀ sv, s.survey = some sv →
      (unpairS s).AisSet = false ∧ (unpairS s).TisSet = false ∧
        (unpairS s).Amat = none ∧ (unpairS s).Tmat = none) := by
  refine ⟨?_, ?_, ?_, ⟨rfl, rfl, rfl, rfl⟩, ?_⟩
  · intro h
    cases hA : s.AisSet with
    | false =>
        cases hs : s.survey with
        | none => rw [getAmat, if_pos hA, hs] at h; exact absurd h (by simp)
        | some sv =>
            rw [getAmat, if_pos hA, hs] at h
            obtain ⟨ha, hs1⟩ : buildA sv s.indActive = a ∧ ({ s with survey := some sv, Amat := some (buildA sv s.indActive), AisSet := true } : LinSt nK nAct nP nF Sv Mp) = s1 := by
              simpa using h
            subst hs1
            constructor
            · simp [getAmat, ha]
            · rfl
    | true =>
        rw [getAmat, if_neg (by simp [hA])] at h
        obtain ⟨ha, hs1⟩ : s.Amat.getD 0 = a ∧ s = s1 := by simpa using h
        subst hs1
        exact ⟨by simp [getAmat, hA, ha], hA⟩
  · intro h
    cases hT : s.TisSet with
    | false =>
        cases hs : s.survey with
        | none => rw [getTmat, if_pos hT, hs] at h; exact absurd h (by simp)
        | some sv =>
            rw [getTmat, if_pos hT, hs] at h
            obtain ⟨ht, hs2⟩ : buildT sv = t ∧ ({ s with survey := some sv, Tmat := some (buildT sv), TisSet := true } : LinSt nK nAct nP nF Sv Mp) = s2 := by
              simpa using h
            subst hs2
            constructor
            · simp [getTmat, ht]
            · rfl
    | true =>
        rw [getTmat, if_neg (by simp [hT])] at h
        obtain ⟨ht, hs2⟩ : s.Tmat.getD 0 = t ∧ s = s2 := by simpa using h
        subst hs2
        exact ⟨by simp [getTmat, hT, ht], hT⟩
  · intro s3 h
    cases hb : boolCoercible s.indActive with
    | false => rw [setIndActive, if_neg (by simp [hb])] at h; exact absurd h (by simp)
    | true =>
        rw [setIndActive, if_pos hb] at h
        obtain hs3 : ({ s with AisSet := false, indActive := v } : LinSt nK nAct nP nF Sv Mp) = s3 := by simpa using h
        subst hs3
        exact ⟨rfl, rfl, rfl, rfl⟩
  · intro sv hs
    simp [unpairS, hs]

/-- Witness for `cache_behavior`: a freshly paired problem builds `A` on
the first read and the second read returns the identical value with the
state unchanged. -/
theorem cache_behavior_witness :
    getAmat (fun _ _ => Matrix.of fun _ _ => (5 : ℚ))
        ({ survey := some (), indActive := [1], xiMap := (), Amat := none,
           Tmat := none, AisSet := false, TisSet := false } :
          LinSt 1 1 1 1 Unit Unit) =
      Except.ok (Matrix.of fun _ _ => (5 : ℚ),
        { survey := some (), indActive := [1], xiMap := (),
          Amat := some (Matrix.of fun _ _ => (5 : ℚ)), Tmat := none,
          AisSet := true, TisSet := false }) ∧
    getAmat (fun _ _ => Matrix.of fun _ _ => (5 : ℚ))
        ({ survey := some (), indActive := [1], xiMap := (),
           Amat := some (Matrix.of fun _ _ => (5 : ℚ)), Tmat := none,
           AisSet := true, TisSet := false } :
          LinSt 1 1 1 1 Unit Unit) =
      Except.ok (Matrix.of fun _ _ => (5 : ℚ),
        { survey := some (), indActive := [1], xiMap := (),
          Amat := some (Matrix.of fun _ _ => (5 : ℚ)), Tmat := none,
          AisSet := true, TisSet := false }) :=
  ⟨rfl,
    ((cache_behavior (fun _ _ => Matrix.of fun _ _ => (5 : ℚ))
        (fun _ => Matrix.of fun _ _ => (0 : ℚ))
        ({ survey := some (), indActive := [1], xiMap := (), Amat := none,
           Tmat := none, AisSet := false, TisSet := false } :
          LinSt 1 1 1 1 Unit Unit)
        (Matrix.of fun _ _ => (5 : ℚ)) (Matrix.of fun _ _ => (0 : ℚ))
        ({ survey := some (), indActive := [1], xiMap := (),
           Amat := some (Matrix.of fun _ _ => (5 : ℚ)), Tmat := none,
           AisSet := true, TisSet := false })
        ({ survey := some (), indActive := [1], xiMap := (), Amat := none,
           Tmat := none, AisSet := false, TisSet := false })
        [1] ()).1 rfl).1⟩

/-- Counterexample to C4 as stated: mutating `indActive` on a problem with
a cached `T` leaves the `T` built flag up and the cached matrix in place,
so the next read of `T` returns the stale cached operator (7) instead of a
rebuild (9) — the `T` cache is not invalidated. -/
theorem cache_invalidation_cex :
    setIndActive
        ({ survey := some (), indActive := [1], xiMap := (),
           Amat := some (Matrix.of fun _ _ => (5 : ℚ)),
           Tmat := some (Matrix.of fun _ _ => (7 : ℚ)),
           AisSet := true, TisSet := true } :
          LinSt 1 1 1 1 Unit Unit) [0] =
      Except.ok
        { survey := some (), indActive := [0], xiMap := (),
          Amat := some (Matrix.of fun _ _ => (5 : ℚ)),
          Tmat := some (Matrix.of fun _ _ => (7 : ℚ)),
          AisSet := false, TisSet := true } ∧
    getTmat (fun _ => Matrix.of fun _ _ => (9 : ℚ))
        ({ survey := some (), indActive := [0], xiMap := (),
           Amat := some (Matrix.of fun _ _ => (5 : ℚ)),
           Tmat := some (Matrix.of fun _ _ => (7 : ℚ)),
           AisSet := false, TisSet := true } :
          LinSt 1 1 1 1 Unit Unit) =
      Except.ok (Matrix.of fun _ _ => (7 : ℚ),
        { survey := some (), indActive := [0], xiMap := (),
          Amat := some (Matrix.of fun _ _ => (5 : ℚ)),
          Tmat := some (Matrix.of fun _ _ => (7 : ℚ)),
          AisSet := false, TisSet := true }) ∧
    (Matrix.of (fun _ _ => (7 : ℚ)) : Matrix (Fin 1) (Fin 1) ℚ) ≠
      Matrix.of (fun _ _ => (9 : ℚ)) := by
  refine ⟨rfl, rfl, ?_⟩
  intro h
  have h2 : (Matrix.of (fun _ _ => (7 : ℚ)) : Matrix (Fin 1) (Fin 1) ℚ) 0 0 =
      (Matrix.of (fun _ _ => (9 : ℚ)) : Matrix (Fin 1) (Fin 1) ℚ) 0 0 := by rw [h]
  simp only [Matrix.of_apply] at h2
  norm_num at h2

/-- C7: pairing precondition and unpair effect. On an unpaired problem,
every forward, Jacobian-vector and transpose-Jacobian-vector operation,
and every `A`/`T` access that would build, fails with the corresponding
"must be paired" error; on a paired problem, `unpair()` clears the survey
binding, clears both cached operators and resets both built flags. -/
theorem pairing_preconditions {nK nAct nP nF : ℕ} {Sv Mp : Type}
    (buildA : Sv → List ℤ → Matrix (Fin nK) (Fin nAct) ℚ)
    (buildT : Sv → Matrix (Fin nF) (Fin nK) ℚ)
    (act : Fin nF → Bool)
    (mapApp : Mp → (Fin nP → ℚ) → Fin nAct → ℚ)
    (mapP : Mp → Matrix (Fin nAct) (Fin nP) ℚ)
    (s : LinSt nK nAct nP nF Sv Mp) (m v : Fin nP → ℚ)
    (w : {i : Fin nF // act i = true} → ℚ) :
    (s.survey = none →
      (s.AisSet = false → getAmat buildA s =
        Except.error "Problem must be paired with survey to generate A matrix") ∧
      (s.TisSet = false → getTmat buildT s =
        Except.error "Problem must be paired with survey to generate T matrix") ∧
      fieldsS buildA buildT mapApp s m =
        Except.error "Problem must be paired with survey to predict data" ∧
      JvecS buildA buildT act mapP s m v =
        Except.error "Problem must be paired with survey to predict data" ∧
      JtvecS buildA buildT act mapP s m w =
        Except.error "Problem must be paired with survey to predict data") ∧
    (∀ sv, s.survey = some sv →
      (unpairS s).survey = none ∧ (unpairS s).Amat = none ∧
      (unpairS s).Tmat = none ∧ (unpairS s).AisSet = false ∧
      (unpairS s).TisSet = false) := by
  constructor
  · intro hs
    refine ⟨?_, ?_, ?_, ?_, ?_⟩
    · intro hA; simp [getAmat, hA, hs]
    · intro hT; simp [getTmat, hT, hs]
    · simp [fieldsS, hs]
    · simp [JvecS, hs]
    · simp [JtvecS, hs]
  · intro sv hs
    simp [unpairS, hs]

/-- Witness for `pairing_preconditions`: a concrete unpaired state rejects
`fields`, and unpairing a concrete paired state clears the survey binding
and both caches. -/
theorem pairing_preconditions_witness :
    fieldsS (fun _ _ => Matrix.of fun _ _ => (5 : ℚ))
        (fun _ => Matrix.of fun _ _ => (3 : ℚ)) (fun _ mm => mm)
        ({ survey := none, indActive := [1], xiMap := (), Amat := none,
           Tmat := none, AisSet := false, TisSet := false } :
          LinSt 1 1 1 1 Unit Unit) (fun _ => 1) =
      Except.error "Problem must be paired with survey to predict data" ∧
    (unpairS ({ survey := some (), indActive := [1], xiMap := (),
                Amat := some (Matrix.of fun _ _ => (5 : ℚ)),
                Tmat := some (Matrix.of fun _ _ => (3 : ℚ)),
                AisSet := true, TisSet := true } :
          LinSt 1 1 1 1 Unit Unit)).survey = none ∧
    (unpairS ({ survey := some (), indActive := [1], xiMap := (),
                Amat := some (Matrix.of fun _ _ => (5 : ℚ)),
                Tmat := some (Matrix.of fun _ _ => (3 : ℚ)),
                AisSet := true, TisSet := true } :
          LinSt 1 1 1 1 Unit Unit)).Amat = none :=
  ⟨(((pairing_preconditions (fun _ _ => Matrix.of fun _ _ => (5 : ℚ))
      (fun _ => Matrix.of fun _ _ => (3 : ℚ)) (fun _ => true) (fun _ mm => mm)
      (fun _ => Matrix.of fun _ _ => (1 : ℚ))
      ({ survey := none, indActive := [1], xiMap := (), Amat := none,
         Tmat := none, AisSet := false, TisSet := false } :
        LinSt 1 1 1 1 Unit Unit) (fun _ => 1) (fun _ => 0)
      (fun _ => 0)).1 rfl).2.2.1),
   ((pairing_preconditions (fun _ _ => Matrix.of fun _ _ => (5 : ℚ))
      (fun _ => Matrix.of fun _ _ => (3 : ℚ)) (fun _ => true) (fun _ mm => mm)
      (fun _ => Matrix.of fun _ _ => (1 : ℚ))
      ({ survey := some (), indActive := [1], xiMap := (),
          Amat := some (Matrix.of fun _ _ => (5 : ℚ)),
          Tmat := some (Matrix.of fun _ _ => (3 : ℚ)),
          AisSet := true, TisSet := true } :
        LinSt 1 1 1 1 Unit Unit) (fun _ => 1) (fun _ => 0)
      (fun _ => 0)).2 () rfl).1,
   ((pairing_preconditions (fun _ _ => Matrix.of fun _ _ => (5 : ℚ))
      (fun _ => Matrix.of fun _ _ => (3 : ℚ)) (fun _ => true) (fun _ mm => mm)
      (fun _ => Matrix.of fun _ _ => (1 : ℚ))
      ({ survey := some (), indActive := [1], xiMap := (),
          Amat := some (Matrix.of fun _ _ => (5 : ℚ)),
          Tmat := some (Matrix.of fun _ _ => (3 : ℚ)),
          AisSet := true, TisSet := true } :
        LinSt 1 1 1 1 Unit Unit) (fun _ => 1) (fun _ => 0)
      (fun _ => 0)).2 () rfl).2.1⟩

/-- C9: linear forward formula and zero model. On a paired problem,
`fields(m)` returns `T · (A · (xiMap m))` (with the effective cached-or-
built operators of the current state), and when the parameter map sends
zero to zero, `fields(0)` returns the all-zero vector. -/
theorem linear_fields_formula {nK nAct nP nF : ℕ} {Sv Mp : Type}
    (buildA : Sv → List ℤ → Matrix (Fin nK) (Fin nAct) ℚ)
    (buildT : Sv → Matrix (Fin nF) (Fin nK) ℚ)
    (mapApp : Mp → (Fin nP → ℚ) → Fin nAct → ℚ)
    (s : LinSt nK nAct nP nF Sv Mp) (sv : Sv) (m : Fin nP → ℚ)
    (hs : s.survey = some sv) :
    (∃ s', fieldsS buildA buildT mapApp s m =
      Except.ok ((valT buildT s sv).mulVec ((valA buildA s sv).mulVec
        (mapApp s.xiMap m)), s')) ∧
    (mapApp s.xiMap 0 = 0 →
      ∃ s', fieldsS buildA buildT mapApp s 0 = Except.ok (0, s')) := by
  have key : ∀ mm : Fin nP → ℚ, ∃ s',
      fieldsS buildA buildT mapApp s mm =
        Except.ok ((valT buildT s sv).mulVec ((valA buildA s sv).mulVec
          (mapApp s.xiMap mm)), s') := by
    intro mm
    obtain ⟨sT, hTeq, hTsur, hTAis, hTAm, hTTis, hTind, hTxi⟩ :=
      getTmat_paired buildT s sv hs
    have hsT : sT.survey = some sv := by rw [hTsur, hs]
    obtain ⟨sA, hAeq, _, _, _, _, _, _⟩ := getAmat_paired buildA sT sv hsT
    have hval : valA buildA sT sv = valA buildA s sv := by
      unfold valA; rw [hTAis, hTAm, hTind]
    refine ⟨sA, ?_⟩
    simp only [fieldsS, hs, hTeq, Bind.bind, Except.bind, hAeq, hval]
  refine ⟨key m, ?_⟩
  intro h0
  obtain ⟨s', hs'⟩ := key 0
  refine ⟨s', ?_⟩
  rw [hs', h0]
  simp

/-- Witness for `linear_fields_formula`: a freshly paired one-cell problem
with the identity parameter map. -/
theorem linear_fields_formula_witness :
    (({ survey := some (), indActive := [1], xiMap := (), Amat := none,
        Tmat := none, AisSet := false, TisSet := false } :
       LinSt 1 1 1 1 Unit Unit)).survey = some () ∧
    (∃ s', fieldsS (fun _ _ => Matrix.of fun _ _ => (5 : ℚ))
        (fun _ => Matrix.of fun _ _ => (3 : ℚ)) (fun _ mm => mm)
        ({ survey := some (), indActive := [1], xiMap := (), Amat := none,
           Tmat := none, AisSet := false, TisSet := false } :
          LinSt 1 1 1 1 Unit Unit) (fun _ => 1) =
      Except.ok ((valT (fun _ => Matrix.of fun _ _ => (3 : ℚ))
          ({ survey := some (), indActive := [1], xiMap := (), Amat := none,
             Tmat := none, AisSet := false, TisSet := false } :
            LinSt 1 1 1 1 Unit Unit) ()).mulVec
        ((valA (fun _ _ => Matrix.of fun _ _ => (5 : ℚ))
          ({ survey := some (), indActive := [1], xiMap := (), Amat := none,
             Tmat := none, AisSet := false, TisSet := false } :
            LinSt 1 1 1 1 Unit Unit) ()).mulVec (fun _ => 1)), s')) ∧
    (∃ s', fieldsS (fun _ _ => Matrix.of fun _ _ => (5 : ℚ))
        (fun _ => Matrix.of fun _ _ => (3 : ℚ)) (fun _ mm => mm)
        ({ survey := some (), indActive := [1], xiMap := (), Amat := none,
           Tmat := none, AisSet := false, TisSet := false } :
          LinSt 1 1 1 1 Unit Unit) 0 = Except.ok (0, s')) :=
  ⟨rfl,
    (linear_fields_formula (fun _ _ => Matrix.of fun _ _ => (5 : ℚ))
      (fun _ => Matrix.of fun _ _ => (3 : ℚ)) (fun _ mm => mm)
      ({ survey := some (), indActive := [1], xiMap := (), Amat := none,
         Tmat := none, AisSet := false, TisSet := false } :
        LinSt 1 1 1 1 Unit Unit) () (fun _ => 1) rfl).1,
    (linear_fields_formula (fun _ _ => Matrix.of fun _ _ => (5 : ℚ))
      (fun _ => Matrix.of fun _ _ => (3 : ℚ)) (fun _ mm => mm)
      ({ survey := some (), indActive := [1], xiMap := (), Amat := none,
         Tmat := none, AisSet := false, TisSet := false } :
        LinSt 1 1 1 1 Unit Unit) () 0 rfl).2 rfl⟩

/-- C6: construction-time validation. Construction succeeds exactly when
the mesh exposes three (nonempty) axis-width arrays — otherwise the
eagerly evaluated `refRadius` default or the 3-D assertion raises — and
the effective `refFact` is a non-negative integer (non-integers rejected
by the constructor's own assertion, negative integers by the `refFact`
setter invoked on the kwarg forwarded to the base-class initializer), and
the effective `refRadius` is at least `refFact` long, and the effective
active mask is boolean-coercible. -/
theorem init_validation (m : MeshData) (rfKw : Option PyNum)
    (rrKw : Option (List ℚ)) (iaKw : Option (List ℤ)) :
    (initBase m rfKw rrKw iaKw).isOk = true ↔
      (m.h.length = 3 ∧
       boolCoercible (iaKw.getD (List.replicate m.nC 1)) = true ∧
       ∃ z dflt, rfKw.getD (PyNum.pint 3) = PyNum.pint z ∧ 0 ≤ z ∧
         defaultRefRadius m (rfKw.getD (PyNum.pint 3)) = Except.ok dflt ∧
         z ≤ ((rrKw.getD dflt).length : ℤ)) := by
  cases rfKw with
  | none =>
      cases hdf : defaultRefRadius m (PyNum.pint 3) with
      | error e =>
          simp [initBase, hdf, superSetKwargs, Except.isOk, Except.toBool,
            Bind.bind, Except.bind]
      | ok dflt =>
          by_cases hL : m.h.length = 3
          · by_cases hz : (3 : ℤ) ≤ ((rrKw.getD dflt).length : ℤ)
            · by_cases hb :
                boolCoercible (iaKw.getD (List.replicate m.nC 1)) = true
              · simp [initBase, hdf, hL, hz, hb, superSetKwargs,
                  Except.isOk, Except.toBool, Bind.bind, Except.bind]
                try omega
              · simp [initBase, hdf, hL, hz, hb, superSetKwargs,
                  Except.isOk, Except.toBool, Bind.bind, Except.bind]
                try omega
            · simp [initBase, hdf, hL, hz, superSetKwargs, Except.isOk,
                Except.toBool, Bind.bind, Except.bind]
              try omega
          · simp [initBase, hdf, hL, superSetKwargs, Except.isOk,
              Except.toBool, Bind.bind, Except.bind]
  | some v =>
      cases v with
      | pint z =>
          cases hdf : defaultRefRadius m (PyNum.pint z) with
          | error e =>
              simp [initBase, hdf, superSetKwargs, Except.isOk,
                Except.toBool, Bind.bind, Except.bind]
          | ok dflt =>
              by_cases hL : m.h.length = 3
              · by_cases hz : z ≤ ((rrKw.getD dflt).length : ℤ)
                · by_cases hb :
                    boolCoercible (iaKw.getD (List.replicate m.nC 1)) = true
                  · by_cases hneg : z > -1
                    · simp [initBase, hdf, hL, hz, hb, hneg, superSetKwargs,
                        setRefFact, Except.isOk, Except.toBool, Bind.bind,
                        Except.bind]
                      try omega
                    · simp [initBase, hdf, hL, hz, hb, hneg, superSetKwargs,
                        setRefFact, Except.isOk, Except.toBool, Bind.bind,
                        Except.bind]
                      try omega
                  · simp [initBase, hdf, hL, hz, hb, superSetKwargs,
                      setRefFact, Except.isOk, Except.toBool, Bind.bind,
                      Except.bind]
                    try omega
                · simp [initBase, hdf, hL, hz, superSetKwargs, setRefFact,
                    Except.isOk, Except.toBool, Bind.bind, Except.bind]
                  try omega
              · simp [initBase, hdf, hL, superSetKwargs, setRefFact,
                  Except.isOk, Except.toBool, Bind.bind, Except.bind]
      | pfloat q =>
          cases hdf : defaultRefRadius m (PyNum.pfloat q) with
          | error e =>
              simp [initBase, hdf, superSetKwargs, Except.isOk,
                Except.toBool, Bind.bind, Except.bind]
          | ok dflt =>
              by_cases hL : m.h.length = 3
              · simp [initBase, hdf, hL, superSetKwargs, Except.isOk,
                  Except.toBool, Bind.bind, Except.bind]
              · simp [initBase, hdf, hL, superSetKwargs, Except.isOk,
                  Except.toBool, Bind.bind, Except.bind]

/-- C8 (amended): the `refFact` setter accepts exactly the non-negative
integers — so `refFact` remains a non-negative integer after every
successful write — while the `refRadius` setter accepts every array;
neither setter rejects a write that breaks `len(refRadius) ≥ refFact`
(a mismatch only prints a warning). -/
theorem config_setters (s : BaseSt) (z : ℤ) (q : ℚ) (arr : List ℚ) :
    (0 ≤ z → setRefFact s (PyNum.pint z) = Except.ok { s with refFact := z }) ∧
    (z < 0 → (setRefFact s (PyNum.pint z)).isOk = false) ∧
    ((setRefFact s (PyNum.pfloat q)).isOk = false) ∧
    (setRefRadius s arr = { s with refRadius := arr }) := by
  refine ⟨?_, ?_, rfl, rfl⟩
  · intro h
    simp only [setRefFact]
    rw [if_pos (by omega : z > -1)]
  · intro h
    simp only [setRefFact]
    rw [if_neg (by omega : ¬z > -1)]
    rfl

/-- Witness for `config_setters`: writing `refFact := 2` on a concrete
state succeeds and stores 2. -/
theorem config_setters_witness :
    (0 : ℤ) ≤ 2 ∧
    setRefFact ⟨0, [1], [1]⟩ (PyNum.pint 2) =
      Except.ok (⟨2, [1], [1]⟩ : BaseSt) :=
  ⟨by decide, (config_setters ⟨0, [1], [1]⟩ 2 0 []).1 (by decide)⟩

/-- Counterexample to C8 as stated: on a state with an empty `refRadius`,
writing `refFact := 5` is accepted (the setter does not reject it), after
which `len(refRadius) ≥ refFact` is violated. -/
theorem refFact_setter_cex :
    setRefFact ⟨0, [], [1]⟩ (PyNum.pint 5) =
      Except.ok (⟨5, [], [1]⟩ : BaseSt) ∧
    ¬((5 : ℤ) ≤ (([] : List ℚ).length : ℤ)) := by
  constructor
  · rfl
  · decide

/-- C5: evaluation of `LogUniformVRM.fields` at concrete failing inputs.
With two sources of one receiver each and per-source blocks `[[2]]` and
`[[3]]`, the code projects BOTH receivers through block `A[0]` (it indexes
the per-source block list with the receiver counter `qq`), returning
`[2, 2]` where the per-source-block reading requires `[2, 3]`; and with
one source holding two receivers it raises an index error. -/
theorem logUniform_wrong_block :
    fieldsLU [1, 1]
      ([Matrix.of fun _ _ => (2 : ℚ), Matrix.of fun _ _ => (3 : ℚ)] :
        List (Matrix (Fin 1) (Fin 1) ℚ))
      (fun _ _ _ _ _ _ => (Matrix.of fun _ _ => (1 : ℚ) :
        Matrix (Fin 1) (Fin 1) ℚ))
      (fun mm : Fin 1 → ℚ => mm) true
      (fun _ => 1) (fun _ => 1) (fun _ => 1) (fun _ => 1) =
      Except.ok [2, 2] ∧
    ([2, 2] : List ℚ) ≠ [2, 3] ∧
    fieldsLU [2]
      ([Matrix.of fun _ _ => (2 : ℚ)] : List (Matrix (Fin 1) (Fin 1) ℚ))
      (fun _ _ _ _ _ _ => (Matrix.of fun _ _ => (1 : ℚ) :
        Matrix (Fin 1) (Fin 1) ℚ))
      (fun mm : Fin 1 → ℚ => mm) true
      (fun _ => 1) (fun _ => 1) (fun _ => 1) (fun _ => 1) =
      Except.error "IndexError: list index out of range" := by
  refine ⟨?_, by decide, ?_⟩
  · have hp : rxPairs [1, 1] = [(0, 0), (1, 0)] := rfl
    simp [fieldsLU, hp, mkvcF, List.finRange, Matrix.mul_apply,
      Fin.sum_univ_one, Except.bind, Bind.bind]
  · rfl

/-- Witness for `init_validation`: a 3-D mesh with `refFact = 0`, an
empty radius array and a boolean mask constructs successfully. -/
theorem init_validation_witness :
    (initBase ⟨[[1], [1], [1]], 1⟩ (some (PyNum.pint 0)) (some [])
        (some [1])).isOk = true :=
  (init_validation ⟨[[1], [1], [1]], 1⟩ (some (PyNum.pint 0)) (some [])
      (some [1])).mpr
    ⟨rfl, by decide, ⟨0, [], rfl, by decide, rfl, by decide⟩⟩
